import Mathlib

/-!
# SolanaTelegramBot: the update loop of `main.go`

A shallow embedding of `src/main.go`.  The program is a single loop over the
updates of a Telegram bot.  Its only state is the package-level map
`pendingBalanceRequests`; everything else is an exchange with the outside
world (sending a chat message, asking the Solana RPC node for a balance,
generating a key pair, writing a log line).

The embedding makes the loop body a pure function: it takes the map, one
update and the answers the outside world gives during that iteration, and
returns the new map, the list of outside-world calls made (in order), the arm
of the loop body that ran, and whether `main` returned.
-/

namespace SolanaTelegramBot

/-! ## Data model -/

/-- The map key `telego.ChatID`: a numeric id (int64) and a user name. -/
structure ChatID where
  ID : Int
  Username : String
deriving DecidableEq, Repr

/-- The part of `telego.Chat` the program reads: the numeric chat id. -/
structure Chat where
  ID : Int
deriving DecidableEq, Repr

/-- The library method `Chat.ChatID()`: the key with the chat's numeric id and
no user name. -/
def Chat.ChatID (c : Chat) : ChatID := { ID := c.ID, Username := "" }

/-- The part of `telego.Message` the program reads. -/
structure Message where
  Chat : Chat
  Text : String
deriving DecidableEq, Repr

/-- The part of `telego.Update` the program reads; `Message` is a pointer that
may be nil. -/
structure Update where
  Message : Option Message
deriving DecidableEq, Repr

/-- The type of `pendingBalanceRequests`, `map[telego.ChatID]bool`: a key is
either absent (`none`) or bound to a boolean. -/
abbrev PendingMap := ChatID → Option Bool

/-- The initial value `map[telego.ChatID]bool{}` (line 16). -/
def pendingBalanceRequests : PendingMap := fun _ => none

/-- Reading `m[k]` in Go: the bound value, or the zero value `false` when the
key is absent.  Reading never inserts. -/
def PendingMap.index (m : PendingMap) (k : ChatID) : Bool := (m k).getD false

/-- The assignment `m[k] = v` in Go: binds `k`, leaves every other key alone. -/
def PendingMap.assign (m : PendingMap) (k : ChatID) (v : Bool) : PendingMap :=
  fun j => if j = k then some v else m j

/-- The value `types.NewAccount()` returns: a public key and a private key,
both byte strings. -/
structure Account where
  PublicKey : List (Fin 256)
  PrivateKey : List (Fin 256)
deriving DecidableEq, Repr

/-- The calls the program makes to the outside world. -/
inductive Effect where
  /-- The call `log.Printf("Received command: %s", command)`; the argument is
  the formatted line. -/
  | logPrintf (line : String)
  /-- The call `bot.SendMessage` with the given `ChatID` and `Text`. -/
  | SendMessage (chatID : ChatID) (text : String)
  /-- The call `solClient.GetBalance(context.Background(), publicKey)`. -/
  | GetBalance (publicKey : String)
deriving DecidableEq, Repr

/-- What the outside world answers during one iteration of the loop.
`GetBalance` is the result of the RPC call (an error, given by its message, or
a balance); `NewAccount` the key pair generated; `ToBase58` the library's
encoding of a public key; `SendMessageErr` whether `bot.SendMessage` returns a
non-nil error. -/
structure World where
  GetBalance : String → Except String Nat
  NewAccount : Account
  ToBase58 : List (Fin 256) → String
  SendMessageErr : Bool

/-! ## Library functions of the Go standard library -/

/-- Go `unicode.IsSpace`: the Latin-1 spaces `\t \n \v \f \r`, space, U+0085,
U+00A0, and the other code points with the Unicode White_Space property. -/
def IsSpace (r : Char) : Bool :=
  let n := r.toNat
  (0x09 ≤ n && n ≤ 0x0D) || n == 0x20 || n == 0x85 || n == 0xA0 || n == 0x1680 ||
    (0x2000 ≤ n && n ≤ 0x200A) || n == 0x2028 || n == 0x2029 || n == 0x202F ||
    n == 0x205F || n == 0x3000

/-- Go `strings.TrimSpace`: the string with all leading and trailing white
space (as `unicode.IsSpace` defines it) removed. -/
def TrimSpace (s : String) : String :=
  ⟨(s.data.dropWhile IsSpace).rdropWhile IsSpace⟩

/-- One lower-case hexadecimal digit. -/
def hexDigit (n : Nat) : Char := "0123456789abcdef".data.getD n '0'

/-- The verb `%x` of `fmt` on a byte slice: two lower-case hexadecimal digits
per byte, nothing in between. -/
def fmtHex (bs : List (Fin 256)) : String :=
  ⟨bs.flatMap fun b => [hexDigit (b.val / 16), hexDigit (b.val % 16)]⟩

/-- The verb `%d` of `fmt` on a `uint64`: the decimal numeral. -/
def fmtDec (n : Nat) : String := toString n

/-- The number a string of decimal digits stands for, most significant digit
first. -/
def decValue (cs : List Char) : Nat := cs.foldl (fun acc c => 10 * acc + (c.toNat - 48)) 0

/-! ## The handlers (lines 98 to 141) -/

/-- The function `handleCreateAccount` (lines 98 to 102). -/
def handleCreateAccount (w : World) (chatID : ChatID) : List Effect :=
  let account := w.NewAccount
  let response := "New Solana account created:\nPublic Key: " ++ w.ToBase58 account.PublicKey ++
    "\nPrivate Key: " ++ fmtHex account.PrivateKey
  [Effect.SendMessage chatID response]

/-- The function `handleFundAccount` (lines 104 to 107). -/
def handleFundAccount (chatID : ChatID) : List Effect :=
  let message := "To fund your Solana account, send some SOL to a valid account address. Use /check_balance to verify the balance."
  [Effect.SendMessage chatID message]

/-- The function `handleCheckBalance` (lines 109 to 112): one message, then
`pendingBalanceRequests[chatID] = true`. -/
def handleCheckBalance (m : PendingMap) (chatID : ChatID) : PendingMap × List Effect :=
  (m.assign chatID true,
    [Effect.SendMessage chatID "Please reply with the Solana public key to check balance."])

/-- The function `handleListTokens` (lines 114 to 116). -/
def handleListTokens (chatID : ChatID) : List Effect :=
  [Effect.SendMessage chatID "Please reply with the Solana public key to list tokens."]

/-- The function `getBalance` (lines 118 to 124): one RPC call; the Go pair
`(uint64, error)` is a balance and an optional error message, the balance
being 0 when there is an error. -/
def getBalance (w : World) (publicKey : String) : (Nat × Option String) × List Effect :=
  match w.GetBalance publicKey with
  | Except.error err => ((0, some err), [Effect.GetBalance publicKey])
  | Except.ok balance => ((balance, none), [Effect.GetBalance publicKey])

/-- The function `handlePublicKeyForBalance` (lines 126 to 141). -/
def handlePublicKeyForBalance (w : World) (chatID : ChatID) (publicKey : String) : List Effect :=
  let publicKey := TrimSpace publicKey
  if publicKey = "" then
    [Effect.SendMessage chatID "Public key cannot be empty. Please try again with a valid key."]
  else
    match getBalance w publicKey with
    | ((_, some err), called) =>
      called ++ [Effect.SendMessage chatID ("Failed to get balance: " ++ err)]
    | ((balance, none), called) =>
      let response := "Balance for account " ++ publicKey ++ ": " ++ fmtDec balance ++ " lamports"
      called ++ [Effect.SendMessage chatID response]

/-! ## The update loop (lines 53 to 95) -/

/-- The text sent in the `"/help"` case (lines 82 to 87). -/
def helpMessage : String :=
  "Available commands:\n" ++
    "/create_account - Create a new Solana account\n" ++
    "/fund_account - Fund a Solana account\n" ++
    "/check_balance - Check Solana account balance\n" ++
    "/list_tokens - List tokens in a Solana account\n" ++
    "/help - Show this help message"

/-- The arm of the loop body that an iteration runs: the early `continue` of
line 55, the pending-request arm of lines 64 to 68, or one case of the
`switch` of lines 70 to 94. -/
inductive Branch where
  | skipped
  | pendingKey
  | caseStart
  | caseCreateAccount
  | caseFundAccount
  | caseCheckBalance
  | caseListTokens
  | caseHelp
  | caseDefault
deriving DecidableEq, Repr

/-- Whether an arm is a case of the command `switch`. -/
def Branch.inSwitch : Branch → Bool
  | Branch.skipped => false
  | Branch.pendingKey => false
  | _ => true

/-- The outcome of one iteration of the loop. -/
structure Iteration where
  pending : PendingMap
  effects : List Effect
  branch : Branch
  returned : Bool

/-- The statement `switch command` (lines 70 to 94).  Only the default case
looks at the error of `bot.SendMessage`, and returns from `main` on one. -/
def commandSwitch (w : World) (m : PendingMap) (chat : Chat) (command : String) : Iteration :=
  if command = "/start" then
    { pending := m
      effects := [Effect.SendMessage chat.ChatID
        "Welcome to Solana Bot! Use /create_account to create a new account."]
      branch := Branch.caseStart
      returned := false }
  else if command = "/create_account" then
    { pending := m
      effects := handleCreateAccount w chat.ChatID
      branch := Branch.caseCreateAccount
      returned := false }
  else if command = "/fund_account" then
    { pending := m
      effects := handleFundAccount chat.ChatID
      branch := Branch.caseFundAccount
      returned := false }
  else if command = "/check_balance" then
    { pending := (handleCheckBalance m chat.ChatID).1
      effects := (handleCheckBalance m chat.ChatID).2
      branch := Branch.caseCheckBalance
      returned := false }
  else if command = "/list_tokens" then
    { pending := m
      effects := handleListTokens chat.ChatID
      branch := Branch.caseListTokens
      returned := false }
  else if command = "/help" then
    { pending := m
      effects := [Effect.SendMessage chat.ChatID helpMessage]
      branch := Branch.caseHelp
      returned := false }
  else
    { pending := m
      effects := [Effect.SendMessage chat.ChatID "Invalid command"]
      branch := Branch.caseDefault
      returned := w.SendMessageErr }

/-- The body of `for update := range updates` (lines 54 to 94). -/
def loopBody (w : World) (m : PendingMap) (update : Update) : Iteration :=
  match update.Message with
  | none => { pending := m, effects := [], branch := Branch.skipped, returned := false }
  | some msg =>
    if msg.Text = "" then
      { pending := m, effects := [], branch := Branch.skipped, returned := false }
    else
      let command := msg.Text
      let logged := Effect.logPrintf ("Received command: " ++ command)
      let chatID := msg.Chat.ChatID
      if m.index chatID then
        { pending := m.assign chatID false
          effects := logged :: handlePublicKeyForBalance w chatID command
          branch := Branch.pendingKey
          returned := false }
      else
        let r := commandSwitch w m msg.Chat command
        { r with effects := logged :: r.effects }

/-- The loop `for update := range updates` over a finite run of updates, each
paired with the answers of the outside world during its iteration: the
iterations that ran, in order.  The loop ends with the updates or when an
iteration returns from `main`. -/
def mainLoop (m : PendingMap) : List (World × Update) → List Iteration
  | [] => []
  | (w, u) :: rest =>
    let it := loopBody w m u
    it :: (if it.returned then [] else mainLoop it.pending rest)

/-- The map after the loop has run over the given updates. -/
def pendingAfter (m : PendingMap) : List (World × Update) → PendingMap
  | [] => m
  | (w, u) :: rest =>
    let it := loopBody w m u
    if it.returned then it.pending else pendingAfter it.pending rest

/-! ## Reading the loop's output -/

/-- The chat messages sent, in order. -/
def sent : List Effect → List (ChatID × String)
  | [] => []
  | Effect.SendMessage c t :: es => (c, t) :: sent es
  | _ :: es => sent es

/-- The public keys for which the balance RPC was called, in order. -/
def balanceCalls : List Effect → List String
  | [] => []
  | Effect.GetBalance k :: es => k :: balanceCalls es
  | _ :: es => balanceCalls es

/-- A chat message with the given text from the given chat. -/
def textUpdate (chat : Chat) (text : String) : Update :=
  { Message := some { Chat := chat, Text := text } }

/-- Whether an update is a message with non-empty text from the given chat. -/
def Update.isTextFrom (u : Update) (chat : Chat) : Bool :=
  match u.Message with
  | none => false
  | some msg => decide (msg.Text ≠ "") && decide (msg.Chat = chat)

/-- The lines of a text: the pieces between line feeds. -/
def splitLines : List Char → List (List Char)
  | [] => [[]]
  | c :: cs =>
    match splitLines cs with
    | [] => [[c]]
    | l :: ls => if c = '\n' then [] :: l :: ls else (c :: l) :: ls

/-- The command a help line is for: the text before its first blank. -/
def lineCommand (line : List Char) : String := ⟨line.takeWhile fun c => c ≠ ' '⟩

/-- The commands the help text lists: one per line after the header line. -/
def helpCommands : List String := ((splitLines helpMessage.data).drop 1).map lineCommand

/-- The commands registered with `bot.SetMyCommands` before the loop starts
(lines 38 to 47): name and description. -/
def botCommands : List (String × String) :=
  [("start", "Start the bot"),
    ("create_account", "Create a new Solana account"),
    ("fund_account", "Fund a Solana account"),
    ("check_balance", "Check Solana account balance"),
    ("list_tokens", "List tokens in a Solana account"),
    ("help", "Show help message")]

/-! ## Concrete inputs used in the examples below -/

/-- A world in which the RPC node answers every balance request with 1500
lamports and sending a message succeeds. -/
def worldOk : World :=
  { GetBalance := fun _ => Except.ok 1500
    NewAccount := { PublicKey := [1, 2], PrivateKey := [10, 255] }
    ToBase58 := fun _ => "5R"
    SendMessageErr := false }

/-- A world in which the RPC call fails and sending a message fails. -/
def worldErr : World :=
  { GetBalance := fun _ => Except.error "rpc: connection refused"
    NewAccount := { PublicKey := [1, 2], PrivateKey := [10, 255] }
    ToBase58 := fun _ => "5R"
    SendMessageErr := true }

/-- A chat. -/
def chatA : Chat := { ID := 7 }

/-- Another chat. -/
def chatB : Chat := { ID := 8 }

/-- A map in which `chatA` has a pending balance request. -/
def pendingA : PendingMap := pendingBalanceRequests.assign chatA.ChatID true

/-! ## Lemmas on the library functions -/

theorem rdropWhile_append_rtakeWhile {α : Type} (p : α → Bool) (l : List α) :
    l.rdropWhile p ++ l.rtakeWhile p = l := by
  have h := List.takeWhile_append_dropWhile p l.reverse
  have h2 := congrArg List.reverse h
  rw [List.reverse_append, List.reverse_reverse] at h2
  exact h2

theorem dropWhile_head_not {α : Type} (p : α → Bool) (l : List α) (x : α)
    (h : (l.dropWhile p).head? = some x) : p x = false := by
  induction l with
  | nil => simp at h
  | cons a l ih =>
    by_cases ha : p a = true
    · rw [List.dropWhile_cons_of_pos ha] at h
      exact ih h
    · rw [List.dropWhile_cons_of_neg ha] at h
      simp at h
      subst h
      simpa using ha

theorem rdropWhile_getLast_not {α : Type} (p : α → Bool) (l : List α) (x : α)
    (h : (l.rdropWhile p).getLast? = some x) : p x = false := by
  have hne : l.rdropWhile p ≠ [] := by
    intro h0
    rw [h0] at h
    simp at h
  have h1 := List.rdropWhile_last_not p l hne
  rw [List.getLast?_eq_getLast _ hne] at h
  simp at h
  subst h
  simpa using h1

theorem rdropWhile_head_eq {α : Type} (p : α → Bool) (l : List α)
    (h : l.rdropWhile p ≠ []) : (l.rdropWhile p).head? = l.head? := by
  have h1 := rdropWhile_append_rtakeWhile p l
  cases hl : l.rdropWhile p with
  | nil => exact absurd hl h
  | cons a r =>
    rw [hl] at h1
    rw [← h1]
    simp

/-- The trimmed form is empty exactly for the strings made of white space
only (the empty string among them). -/
theorem TrimSpace_eq_empty_iff (s : String) :
    TrimSpace s = "" ↔ ∀ ch ∈ s.data, IsSpace ch = true := by
  have key : TrimSpace s = "" ↔ (s.data.dropWhile IsSpace).rdropWhile IsSpace = [] := by
    unfold TrimSpace
    constructor
    · intro h
      exact congrArg String.data h
    · intro h
      rw [h]
  rw [key, List.rdropWhile_eq_nil_iff]
  constructor
  · intro h
    cases hd : s.data.dropWhile IsSpace with
    | nil => exact List.dropWhile_eq_nil_iff.mp hd
    | cons a r =>
      have h1 := dropWhile_head_not IsSpace s.data a (by rw [hd]; rfl)
      have h2 := h a (by rw [hd]; exact List.mem_cons_self a r)
      rw [h1] at h2
      exact absurd h2 (by decide)
  · intro h x hx
    exact h x ((List.dropWhile_sublist IsSpace).subset hx)

/-- The trimmed form is the input with a white-space run removed at each end:
the input is `pre ++ TrimSpace s ++ post` with `pre` and `post` made of white
space, and the trimmed form neither starts nor ends with white space. -/
theorem TrimSpace_spec (s : String) :
    ∃ pre post : List Char,
      s.data = pre ++ (TrimSpace s).data ++ post ∧
      (∀ ch ∈ pre, IsSpace ch = true) ∧ (∀ ch ∈ post, IsSpace ch = true) ∧
      (∀ ch, (TrimSpace s).data.head? = some ch → IsSpace ch = false) ∧
      (∀ ch, (TrimSpace s).data.getLast? = some ch → IsSpace ch = false) := by
  refine ⟨s.data.takeWhile IsSpace, (s.data.dropWhile IsSpace).rtakeWhile IsSpace, ?_, ?_, ?_, ?_, ?_⟩
  · show s.data = _ ++ (s.data.dropWhile IsSpace).rdropWhile IsSpace ++ _
    rw [List.append_assoc, rdropWhile_append_rtakeWhile, List.takeWhile_append_dropWhile]
  · intro ch hch
    exact List.mem_takeWhile_imp hch
  · intro ch hch
    exact List.mem_rtakeWhile_imp hch
  · intro ch hch
    change ((s.data.dropWhile IsSpace).rdropWhile IsSpace).head? = some ch at hch
    have hne : (s.data.dropWhile IsSpace).rdropWhile IsSpace ≠ [] := by
      intro h0
      rw [h0] at hch
      simp at hch
    rw [rdropWhile_head_eq _ _ hne] at hch
    exact dropWhile_head_not IsSpace s.data ch hch
  · intro ch hch
    exact rdropWhile_getLast_not IsSpace _ ch hch

theorem digitChar_val (k : Nat) (h : k < 10) :
    (Nat.digitChar k).toNat - 48 = k ∧ (Nat.digitChar k).isDigit = true := by
  interval_cases k <;> decide

theorem toDigitsCore_spec (fuel : Nat) : ∀ (n : Nat) (ds : List Char), n < fuel →
    ∃ pre : List Char, Nat.toDigitsCore 10 fuel n ds = pre ++ ds ∧
      (∀ c ∈ pre, c.isDigit = true) ∧
      ∀ a : Nat, pre.foldl (fun acc c => 10 * acc + (c.toNat - 48)) a =
        a * 10 ^ pre.length + n := by
  induction fuel with
  | zero =>
    intro n ds h
    omega
  | succ fuel ih =>
    intro n ds h
    have hd := digitChar_val (n % 10) (Nat.mod_lt _ (by decide))
    by_cases h0 : n / 10 = 0
    · refine ⟨[Nat.digitChar (n % 10)], ?_, ?_, ?_⟩
      · simp [Nat.toDigitsCore, h0]
      · intro c hc
        simp at hc
        rw [hc]
        exact hd.2
      · intro a
        simp only [List.foldl, List.length_singleton, pow_one]
        rw [hd.1]
        omega
    · have hlt : n / 10 < fuel := by omega
      obtain ⟨pre, h1, h2, h3⟩ := ih (n / 10) (Nat.digitChar (n % 10) :: ds) hlt
      refine ⟨pre ++ [Nat.digitChar (n % 10)], ?_, ?_, ?_⟩
      · simp [Nat.toDigitsCore, h0, h1]
      · intro c hc
        rcases List.mem_append.mp hc with hc | hc
        · exact h2 c hc
        · simp at hc
          rw [hc]
          exact hd.2
      · intro a
        rw [List.foldl_append, h3 a]
        simp only [List.foldl, List.length_append, List.length_singleton, pow_succ]
        rw [hd.1]
        nlinarith [Nat.div_add_mod n 10]

/-- The text `fmtDec` prints is made of decimal digits and stands for the
number printed. -/
theorem fmtDec_decimal (n : Nat) :
    decValue (fmtDec n).data = n ∧ ∀ c ∈ (fmtDec n).data, c.isDigit = true := by
  obtain ⟨pre, h1, h2, h3⟩ := toDigitsCore_spec (n + 1) n [] (Nat.lt_succ_self n)
  have hdata : (fmtDec n).data = pre := by
    show Nat.toDigitsCore 10 (n + 1) n [] = pre
    rw [h1, List.append_nil]
  rw [hdata]
  refine ⟨?_, h2⟩
  unfold decValue
  rw [h3 0]
  simp

/-! ## Lemmas on the map and on one iteration -/

theorem index_assign_self (m : PendingMap) (k : ChatID) (v : Bool) :
    (m.assign k v).index k = v := by
  simp [PendingMap.index, PendingMap.assign]

theorem assign_self (m : PendingMap) (k : ChatID) (v : Bool) :
    (m.assign k v) k = some v := by
  simp [PendingMap.assign]

theorem assign_other (m : PendingMap) (k j : ChatID) (v : Bool) (h : j ≠ k) :
    (m.assign k v) j = m j := by
  simp [PendingMap.assign, h]

theorem index_eq_of_eq (m n : PendingMap) (k : ChatID) (h : m k = n k) :
    m.index k = n.index k := by
  simp [PendingMap.index, h]

theorem index_true_iff (m : PendingMap) (k : ChatID) : m.index k = true ↔ m k = some true := by
  unfold PendingMap.index
  cases m k with
  | none => simp
  | some b => simp

theorem loopBody_nil (w : World) (m : PendingMap) :
    loopBody w m { Message := none } =
      { pending := m, effects := [], branch := Branch.skipped, returned := false } := rfl

theorem loopBody_empty (w : World) (m : PendingMap) (chat : Chat) :
    loopBody w m (textUpdate chat "") =
      { pending := m, effects := [], branch := Branch.skipped, returned := false } := rfl

theorem loopBody_pending (w : World) (m : PendingMap) (chat : Chat) (t : String)
    (ht : t ≠ "") (hm : m.index chat.ChatID = true) :
    loopBody w m (textUpdate chat t) =
      { pending := m.assign chat.ChatID false
        effects := Effect.logPrintf ("Received command: " ++ t) ::
          handlePublicKeyForBalance w chat.ChatID t
        branch := Branch.pendingKey
        returned := false } := by
  simp [loopBody, textUpdate, ht, hm]

theorem loopBody_switch (w : World) (m : PendingMap) (chat : Chat) (t : String)
    (ht : t ≠ "") (hm : m.index chat.ChatID = false) :
    loopBody w m (textUpdate chat t) =
      { pending := (commandSwitch w m chat t).pending
        effects := Effect.logPrintf ("Received command: " ++ t) :: (commandSwitch w m chat t).effects
        branch := (commandSwitch w m chat t).branch
        returned := (commandSwitch w m chat t).returned } := by
  simp [loopBody, textUpdate, ht, hm]

theorem commandSwitch_inSwitch (w : World) (m : PendingMap) (chat : Chat) (t : String) :
    (commandSwitch w m chat t).branch.inSwitch = true := by
  unfold commandSwitch
  split_ifs
  all_goals rfl

theorem commandSwitch_default (w : World) (m : PendingMap) (chat : Chat) (t : String)
    (h : t ∉ ["/start", "/create_account", "/fund_account", "/check_balance", "/list_tokens",
      "/help"]) :
    commandSwitch w m chat t =
      { pending := m
        effects := [Effect.SendMessage chat.ChatID "Invalid command"]
        branch := Branch.caseDefault
        returned := w.SendMessageErr } := by
  simp only [List.mem_cons, List.mem_singleton, List.not_mem_nil, or_false, not_or] at h
  obtain ⟨h1, h2, h3, h4, h5, h6⟩ := h
  simp [commandSwitch, h1, h2, h3, h4, h5, h6]

theorem commandSwitch_frame (w : World) (m : PendingMap) (chat : Chat) (t : String) (d : ChatID)
    (h : d ≠ chat.ChatID) : (commandSwitch w m chat t).pending d = m d := by
  unfold commandSwitch
  split_ifs
  all_goals first | rfl | exact assign_other m _ d true h

/-- An update that is not a message from the chat with key `d` leaves the
binding of `d` alone. -/
theorem loopBody_frame (w : World) (m : PendingMap) (u : Update) (d : ChatID)
    (h : ∀ msg, u.Message = some msg → msg.Text ≠ "" → msg.Chat.ChatID ≠ d) :
    (loopBody w m u).pending d = m d := by
  unfold loopBody
  cases hu : u.Message with
  | none => rfl
  | some msg =>
    by_cases ht : msg.Text = ""
    · simp [ht]
    · have hd := h msg hu ht
      by_cases hp : m.index msg.Chat.ChatID = true
      · simp only [ht, hp, if_true, if_false]
        exact assign_other m _ d false (Ne.symm hd)
      · have hp2 : m.index msg.Chat.ChatID = false := by simpa using hp
        simp only [ht, hp2, if_false, Bool.false_eq_true]
        exact commandSwitch_frame w m msg.Chat msg.Text d (Ne.symm hd)

/-! ## Lemmas on the loop -/

theorem chatID_injective (c d : Chat) (h : c.ChatID = d.ChatID) : c = d := by
  cases c
  cases d
  simp [Chat.ChatID] at h
  simp [h]

theorem not_isTextFrom (u : Update) (chat : Chat) (h : u.isTextFrom chat = false) :
    ∀ msg, u.Message = some msg → msg.Text ≠ "" → msg.Chat.ChatID ≠ chat.ChatID := by
  intro msg hu ht hc
  have hcc := chatID_injective _ _ hc
  simp [Update.isTextFrom, hu, ht, hcc] at h

/-- When no iteration over `us` returns from `main`, one more update is
processed in the map that `us` leaves behind. -/
theorem mainLoop_snoc (m : PendingMap) (us : List (World × Update)) (w : World) (u : Update)
    (h : ∀ it ∈ mainLoop m us, it.returned = false) :
    mainLoop m (us ++ [(w, u)]) = mainLoop m us ++ [loopBody w (pendingAfter m us) u] := by
  induction us generalizing m with
  | nil => simp [mainLoop, pendingAfter]
  | cons x rest ih =>
    obtain ⟨w1, u1⟩ := x
    have h1 : (loopBody w1 m u1).returned = false := h _ (by simp [mainLoop])
    have h2 : ∀ it ∈ mainLoop (loopBody w1 m u1).pending rest, it.returned = false := by
      intro it hit
      apply h
      simp [mainLoop, h1, hit]
    simp [mainLoop, pendingAfter, h1, ih _ h2]

/-- Updates that are not text messages from the chat with key `d` leave the
binding of `d` alone, however many of them the loop processes. -/
theorem pendingAfter_frame (m : PendingMap) (us : List (World × Update)) (d : ChatID)
    (h : ∀ x ∈ us, ∀ msg, x.2.Message = some msg → msg.Text ≠ "" → msg.Chat.ChatID ≠ d) :
    pendingAfter m us d = m d := by
  induction us generalizing m with
  | nil => rfl
  | cons x rest ih =>
    obtain ⟨w1, u1⟩ := x
    have hx := h (w1, u1) (List.mem_cons_self _ _)
    have hrest : ∀ x ∈ rest, ∀ msg, x.2.Message = some msg → msg.Text ≠ "" →
        msg.Chat.ChatID ≠ d := fun x hx => h x (List.mem_cons_of_mem _ hx)
    have hstep := loopBody_frame w1 m u1 d hx
    simp only [pendingAfter]
    split_ifs
    · exact hstep
    · rw [ih _ hrest, hstep]

theorem pendingAfter_frame_chat (m : PendingMap) (us : List (World × Update)) (chat : Chat)
    (h : ∀ x ∈ us, x.2.isTextFrom chat = false) :
    pendingAfter m us chat.ChatID = m chat.ChatID :=
  pendingAfter_frame m us chat.ChatID (fun x hx => not_isTextFrom x.2 chat (h x hx))

/-- The last iteration of a run that ends with a text message, when no
earlier iteration returned from `main`. -/
theorem mainLoop_getLast (m : PendingMap) (us : List (World × Update)) (w : World) (u : Update)
    (h : ∀ it ∈ mainLoop m us, it.returned = false) :
    (mainLoop m (us ++ [(w, u)])).getLast? = some (loopBody w (pendingAfter m us) u) := by
  rw [mainLoop_snoc m us w u h]
  simp

theorem sent_handlePublicKeyForBalance (w : World) (chatID : ChatID) (publicKey : String) :
    ∃ reply, sent (handlePublicKeyForBalance w chatID publicKey) = [(chatID, reply)] := by
  unfold handlePublicKeyForBalance getBalance
  by_cases h : TrimSpace publicKey = ""
  · simp [h, sent]
  · cases hb : w.GetBalance (TrimSpace publicKey) with
    | error e => simp [h, hb, sent]
    | ok b => simp [h, hb, sent]

theorem sent_commandSwitch (w : World) (m : PendingMap) (chat : Chat) (t : String) :
    ∃ reply, sent (commandSwitch w m chat t).effects = [(chat.ChatID, reply)] := by
  unfold commandSwitch
  split_ifs
  all_goals simp [sent, handleCreateAccount, handleFundAccount, handleCheckBalance,
    handleListTokens]

theorem balanceCalls_commandSwitch (w : World) (m : PendingMap) (chat : Chat) (t : String) :
    balanceCalls (commandSwitch w m chat t).effects = [] := by
  unfold commandSwitch
  split_ifs
  all_goals simp [balanceCalls, handleCreateAccount, handleFundAccount, handleCheckBalance,
    handleListTokens]

/-! ## The claims -/

set_option maxRecDepth 100000

/-- C3: for every input whose trimmed form is empty (the empty string or a
string of white space only), `handlePublicKeyForBalance` sends exactly one
message, "Public key cannot be empty. Please try again with a valid key.", to
the chat, and makes no balance call. -/
theorem handlePublicKeyForBalance_empty (w : World) (chatID : ChatID) (publicKey : String)
    (h : TrimSpace publicKey = "" ∨ ∀ ch ∈ publicKey.data, IsSpace ch = true) :
    handlePublicKeyForBalance w chatID publicKey =
        [Effect.SendMessage chatID
          "Public key cannot be empty. Please try again with a valid key."] ∧
      sent (handlePublicKeyForBalance w chatID publicKey) =
        [(chatID, "Public key cannot be empty. Please try again with a valid key.")] ∧
      balanceCalls (handlePublicKeyForBalance w chatID publicKey) = [] := by
  have h0 : TrimSpace publicKey = "" := by
    rcases h with h | h
    · exact h
    · exact (TrimSpace_eq_empty_iff publicKey).mpr h
  simp [handlePublicKeyForBalance, h0, sent, balanceCalls]

theorem handlePublicKeyForBalance_empty_witness :
    (TrimSpace " \t\u00a0\n" = "" ∨ ∀ ch ∈ " \t\u00a0\n".data, IsSpace ch = true) ∧
      handlePublicKeyForBalance worldOk chatA.ChatID " \t\u00a0\n" =
        [Effect.SendMessage chatA.ChatID
          "Public key cannot be empty. Please try again with a valid key."] ∧
      sent (handlePublicKeyForBalance worldOk chatA.ChatID " \t\u00a0\n") =
        [(chatA.ChatID, "Public key cannot be empty. Please try again with a valid key.")] ∧
      balanceCalls (handlePublicKeyForBalance worldOk chatA.ChatID " \t\u00a0\n") = [] :=
  ⟨Or.inl (by decide),
    handlePublicKeyForBalance_empty worldOk chatA.ChatID " \t\u00a0\n" (Or.inl (by decide))⟩

/-- C5: for every outcome of the remote call and every key text whose trimmed
form `k` is not empty, `handlePublicKeyForBalance` makes exactly one balance
call, with argument `k`, and then sends exactly one reply to the chat:
"Failed to get balance: " followed by the error message when the call fails,
"Balance for account k: b lamports" with `b` in decimal when it returns `b`.
The argument `k` is the input without its leading and trailing white space,
and the text printed for `b` is made of decimal digits and stands for `b`. -/
theorem handlePublicKeyForBalance_nonempty (w : World) (chatID : ChatID) (publicKey : String)
    (h : TrimSpace publicKey ≠ "") :
    handlePublicKeyForBalance w chatID publicKey =
        [Effect.GetBalance (TrimSpace publicKey),
          Effect.SendMessage chatID
            (match w.GetBalance (TrimSpace publicKey) with
              | Except.error e => "Failed to get balance: " ++ e
              | Except.ok b =>
                "Balance for account " ++ TrimSpace publicKey ++ ": " ++ fmtDec b ++ " lamports")] ∧
      balanceCalls (handlePublicKeyForBalance w chatID publicKey) = [TrimSpace publicKey] ∧
      (∃ reply, sent (handlePublicKeyForBalance w chatID publicKey) = [(chatID, reply)]) ∧
      (∃ pre post : List Char,
        publicKey.data = pre ++ (TrimSpace publicKey).data ++ post ∧
        (∀ ch ∈ pre, IsSpace ch = true) ∧ (∀ ch ∈ post, IsSpace ch = true) ∧
        (∀ ch, (TrimSpace publicKey).data.head? = some ch → IsSpace ch = false) ∧
        (∀ ch, (TrimSpace publicKey).data.getLast? = some ch → IsSpace ch = false)) ∧
      (∀ b : Nat, decValue (fmtDec b).data = b ∧ ∀ c ∈ (fmtDec b).data, c.isDigit = true) := by
  refine ⟨?_, ?_, sent_handlePublicKeyForBalance w chatID publicKey, TrimSpace_spec publicKey,
    fmtDec_decimal⟩
  · unfold handlePublicKeyForBalance getBalance
    cases hb : w.GetBalance (TrimSpace publicKey) with
    | error e => simp [h, hb]
    | ok b => simp [h, hb]
  · unfold handlePublicKeyForBalance getBalance
    cases hb : w.GetBalance (TrimSpace publicKey) with
    | error e => simp [h, hb, balanceCalls]
    | ok b => simp [h, hb, balanceCalls]

theorem handlePublicKeyForBalance_nonempty_witness :
    TrimSpace "  4Nd1mBQtrMJVYVfKf2PJy9NZUZdTAsp7D4xWLs4gDB4T \n" ≠ "" ∧
      handlePublicKeyForBalance worldOk chatA.ChatID
          "  4Nd1mBQtrMJVYVfKf2PJy9NZUZdTAsp7D4xWLs4gDB4T \n" =
        [Effect.GetBalance "4Nd1mBQtrMJVYVfKf2PJy9NZUZdTAsp7D4xWLs4gDB4T",
          Effect.SendMessage chatA.ChatID
            "Balance for account 4Nd1mBQtrMJVYVfKf2PJy9NZUZdTAsp7D4xWLs4gDB4T: 1500 lamports"] ∧
      handlePublicKeyForBalance worldErr chatA.ChatID "/help" =
        [Effect.GetBalance "/help",
          Effect.SendMessage chatA.ChatID "Failed to get balance: rpc: connection refused"] :=
  ⟨by decide,
    (handlePublicKeyForBalance_nonempty worldOk chatA.ChatID
      "  4Nd1mBQtrMJVYVfKf2PJy9NZUZdTAsp7D4xWLs4gDB4T \n" (by decide)).1.trans (by decide),
    (handlePublicKeyForBalance_nonempty worldErr chatA.ChatID "/help" (by decide)).1.trans
      (by decide)⟩

/-- C2: one iteration on a text message from a chat whose pending flag is
true, whatever the non-empty text (a command, white space only, anything):
the text goes to `handlePublicKeyForBalance`, no case of the command switch
runs, `main` does not return, and the chat's flag is false afterwards, for
every answer of the outside world.  The flag is not set again: the chat's next
text message (with any updates that are not text messages of that chat in
between, and as long as `main` has not returned) is dispatched by the command
switch. -/
theorem pending_text_is_key (w : World) (m : PendingMap) (chat : Chat) (t : String)
    (hm : m.index chat.ChatID = true) (ht : t ≠ "") :
    (loopBody w m (textUpdate chat t)).branch = Branch.pendingKey ∧
      (loopBody w m (textUpdate chat t)).branch.inSwitch = false ∧
      (loopBody w m (textUpdate chat t)).effects =
        Effect.logPrintf ("Received command: " ++ t) ::
          handlePublicKeyForBalance w chat.ChatID t ∧
      (loopBody w m (textUpdate chat t)).pending chat.ChatID = some false ∧
      (loopBody w m (textUpdate chat t)).pending.index chat.ChatID = false ∧
      (loopBody w m (textUpdate chat t)).returned = false ∧
      ∀ (mid : List (World × Update)) (w2 : World) (t2 : String), t2 ≠ "" →
        (∀ x ∈ mid, x.2.isTextFrom chat = false) →
        (∀ it ∈ mainLoop m ((w, textUpdate chat t) :: mid), it.returned = false) →
        ∃ it, (mainLoop m ((w, textUpdate chat t) :: mid ++
            [(w2, textUpdate chat t2)])).getLast? = some it ∧
          it.branch.inSwitch = true ∧ it.branch ≠ Branch.pendingKey := by
  have hstep := loopBody_pending w m chat t ht hm
  refine ⟨by rw [hstep], by rw [hstep]; rfl, by rw [hstep], ?_, ?_, by rw [hstep], ?_⟩
  · rw [hstep]
    exact assign_self m _ false
  · rw [hstep]
    exact index_assign_self m _ false
  · intro mid w2 t2 ht2 hmid hrun
    have hlast := mainLoop_getLast m ((w, textUpdate chat t) :: mid) w2 (textUpdate chat t2) hrun
    have hpend : (pendingAfter m ((w, textUpdate chat t) :: mid)).index chat.ChatID = false := by
      have h1 : pendingAfter m ((w, textUpdate chat t) :: mid) chat.ChatID = some false := by
        simp only [pendingAfter, hstep]
        rw [if_neg (by simp), pendingAfter_frame_chat _ mid chat hmid]
        exact assign_self m _ false
      simp [PendingMap.index, h1]
    refine ⟨_, hlast, ?_, ?_⟩
    · rw [loopBody_switch _ _ _ _ ht2 hpend]
      exact commandSwitch_inSwitch _ _ _ _
    · intro hb
      have h2 : (loopBody w2 (pendingAfter m ((w, textUpdate chat t) :: mid))
          (textUpdate chat t2)).branch.inSwitch = true := by
        rw [loopBody_switch _ _ _ _ ht2 hpend]
        exact commandSwitch_inSwitch _ _ _ _
      rw [hb] at h2
      exact absurd h2 (by decide)

theorem pending_text_is_key_witness :
    pendingA.index chatA.ChatID = true ∧ "/help" ≠ "" ∧
      (loopBody worldErr pendingA (textUpdate chatA "/help")).branch = Branch.pendingKey ∧
      (loopBody worldErr pendingA (textUpdate chatA "/help")).effects =
        [Effect.logPrintf "Received command: /help", Effect.GetBalance "/help",
          Effect.SendMessage chatA.ChatID "Failed to get balance: rpc: connection refused"] ∧
      (loopBody worldErr pendingA (textUpdate chatA "/help")).pending chatA.ChatID = some false ∧
      (loopBody worldOk pendingA (textUpdate chatA "  ")).effects =
        [Effect.logPrintf "Received command:   ",
          Effect.SendMessage chatA.ChatID
            "Public key cannot be empty. Please try again with a valid key."] ∧
      (loopBody worldOk pendingA (textUpdate chatA "  ")).pending chatA.ChatID = some false :=
  ⟨by decide, by decide,
    (pending_text_is_key worldErr pendingA chatA "/help" (by decide) (by decide)).1,
    (pending_text_is_key worldErr pendingA chatA "/help" (by decide) (by decide)).2.2.1.trans
      (by decide),
    (pending_text_is_key worldErr pendingA chatA "/help" (by decide) (by decide)).2.2.2.1,
    (pending_text_is_key worldOk pendingA chatA "  " (by decide) (by decide)).2.2.1.trans
      (by decide),
    (pending_text_is_key worldOk pendingA chatA "  " (by decide) (by decide)).2.2.2.1⟩

/-- C4: for every chat whose pending flag is not set and every non-empty text
that is not exactly one of the six command strings, the iteration sends the
single message "Invalid command" to the chat and leaves the map unchanged.
Matching is verbatim: "/help " (trailing blank), "/HELP" and "/help x" fall in
the default case. -/
theorem unknown_command_invalid (w : World) (m : PendingMap) (chat : Chat) (t : String)
    (hm : m.index chat.ChatID = false) (ht : t ≠ "")
    (hc : t ∉ ["/start", "/create_account", "/fund_account", "/check_balance", "/list_tokens",
      "/help"]) :
    (loopBody w m (textUpdate chat t)).effects =
        [Effect.logPrintf ("Received command: " ++ t),
          Effect.SendMessage chat.ChatID "Invalid command"] ∧
      sent (loopBody w m (textUpdate chat t)).effects = [(chat.ChatID, "Invalid command")] ∧
      balanceCalls (loopBody w m (textUpdate chat t)).effects = [] ∧
      (loopBody w m (textUpdate chat t)).pending = m ∧
      (loopBody w m (textUpdate chat t)).branch = Branch.caseDefault ∧
      (commandSwitch w m chat "/help ").branch = Branch.caseDefault ∧
      (commandSwitch w m chat "/HELP").branch = Branch.caseDefault ∧
      (commandSwitch w m chat "/help x").branch = Branch.caseDefault := by
  rw [loopBody_switch w m chat t ht hm, commandSwitch_default w m chat t hc]
  refine ⟨rfl, rfl, rfl, rfl, rfl, ?_, ?_, ?_⟩
  · rw [commandSwitch_default w m chat _ (by decide)]
  · rw [commandSwitch_default w m chat _ (by decide)]
  · rw [commandSwitch_default w m chat _ (by decide)]

theorem unknown_command_invalid_witness :
    pendingBalanceRequests.index chatA.ChatID = false ∧ "/help " ≠ "" ∧
      "/help " ∉ ["/start", "/create_account", "/fund_account", "/check_balance",
        "/list_tokens", "/help"] ∧
      (loopBody worldOk pendingBalanceRequests (textUpdate chatA "/help ")).effects =
        [Effect.logPrintf "Received command: /help ",
          Effect.SendMessage chatA.ChatID "Invalid command"] ∧
      (loopBody worldOk pendingBalanceRequests (textUpdate chatA "/help ")).pending =
        pendingBalanceRequests :=
  ⟨by decide, by decide, by decide,
    (unknown_command_invalid worldOk pendingBalanceRequests chatA "/help " (by decide)
      (by decide) (by decide)).1,
    (unknown_command_invalid worldOk pendingBalanceRequests chatA "/help " (by decide)
      (by decide) (by decide)).2.2.2.1⟩

/-- C10: an update with no message or with empty text produces no call to
the outside world at all (no message, no balance call) and leaves the map
unchanged; an update with non-empty text produces exactly one outgoing
message, addressed to the chat the update came from. -/
theorem one_reply_per_text (w : World) (m : PendingMap) (u : Update) :
    (u.Message = none →
        (loopBody w m u).effects = [] ∧ (loopBody w m u).pending = m) ∧
      (∀ msg, u.Message = some msg → msg.Text = "" →
        (loopBody w m u).effects = [] ∧ (loopBody w m u).pending = m) ∧
      (∀ msg, u.Message = some msg → msg.Text ≠ "" →
        ∃ reply, sent (loopBody w m u).effects = [(msg.Chat.ChatID, reply)]) := by
  refine ⟨?_, ?_, ?_⟩
  · intro hu
    simp [loopBody, hu]
  · intro msg hu ht
    simp [loopBody, hu, ht]
  · intro msg hu ht
    by_cases hp : m.index msg.Chat.ChatID = true
    · obtain ⟨reply, hr⟩ := sent_handlePublicKeyForBalance w msg.Chat.ChatID msg.Text
      exact ⟨reply, by simp [loopBody, hu, ht, hp, sent, hr]⟩
    · have hp2 : m.index msg.Chat.ChatID = false := by simpa using hp
      obtain ⟨reply, hr⟩ := sent_commandSwitch w m msg.Chat msg.Text
      exact ⟨reply, by simp [loopBody, hu, ht, hp2, sent, hr]⟩

theorem one_reply_per_text_witness :
    (loopBody worldOk pendingA { Message := none }).effects = [] ∧
      (loopBody worldOk pendingA (textUpdate chatA "")).effects = [] ∧
      ∃ reply, sent (loopBody worldOk pendingA (textUpdate chatB "/create_account")).effects =
        [(chatB.ChatID, reply)] :=
  ⟨((one_reply_per_text worldOk pendingA { Message := none }).1 rfl).1,
    ((one_reply_per_text worldOk pendingA (textUpdate chatA "")).2.1 _ rfl rfl).1,
    (one_reply_per_text worldOk pendingA (textUpdate chatB "/create_account")).2.2 _ rfl
      (by decide)⟩

/-- C8: chat isolation.  An update that does not come from the chat with key
`d` leaves the binding of `d` in the map as it was (absent, or present with
the same value); so when `d` had no pending request, the next text message of
`d` is not treated as a public key, whatever the other chat sent
("/check_balance" included). -/
theorem chat_isolation (w : World) (m : PendingMap) (u : Update) (d : ChatID)
    (h : ∀ msg, u.Message = some msg → msg.Chat.ChatID ≠ d) :
    (loopBody w m u).pending d = m d ∧
      (loopBody w m u).pending.index d = m.index d ∧
      ∀ (chat : Chat) (t : String) (w2 : World), chat.ChatID = d → m.index d = false →
        (loopBody w2 (loopBody w m u).pending (textUpdate chat t)).branch ≠ Branch.pendingKey := by
  have hf : (loopBody w m u).pending d = m d :=
    loopBody_frame w m u d (fun msg hu _ => h msg hu)
  have hi : (loopBody w m u).pending.index d = m.index d := index_eq_of_eq _ _ d hf
  refine ⟨hf, hi, ?_⟩
  intro chat t w2 hc hm hb
  subst hc
  by_cases ht : t = ""
  · subst ht
    rw [loopBody_empty] at hb
    cases hb
  · have h2 := commandSwitch_inSwitch w2 (loopBody w m u).pending chat t
    rw [loopBody_switch _ _ _ _ ht (hi.trans hm)] at hb
    simp only at hb
    rw [hb] at h2
    exact absurd h2 (by decide)

theorem chat_isolation_witness :
    (∀ msg, (textUpdate chatA "/check_balance").Message = some msg →
        msg.Chat.ChatID ≠ chatB.ChatID) ∧
      (loopBody worldOk pendingBalanceRequests (textUpdate chatA "/check_balance")).pending
        chatA.ChatID = some true ∧
      (loopBody worldOk pendingBalanceRequests (textUpdate chatA "/check_balance")).pending
        chatB.ChatID = none ∧
      (loopBody worldOk
        (loopBody worldOk pendingBalanceRequests (textUpdate chatA "/check_balance")).pending
        (textUpdate chatB "/help")).branch = Branch.caseHelp :=
  ⟨by
      intro msg hm
      cases hm
      decide,
    by decide,
    (chat_isolation worldOk pendingBalanceRequests (textUpdate chatA "/check_balance")
      chatB.ChatID (by
        intro msg hm
        cases hm
        decide)).1,
    by decide⟩

theorem loopBody_pending_cases (w : World) (m : PendingMap) (u : Update) :
    (loopBody w m u).pending = m ∨
      (∃ chat t, u = textUpdate chat t ∧ t ≠ "" ∧ m chat.ChatID = some true ∧
        (loopBody w m u).branch = Branch.pendingKey ∧
        (loopBody w m u).pending = m.assign chat.ChatID false) ∨
      (∃ chat, u = textUpdate chat "/check_balance" ∧ m.index chat.ChatID = false ∧
        (loopBody w m u).branch = Branch.caseCheckBalance ∧
        (loopBody w m u).pending = m.assign chat.ChatID true) := by
  obtain ⟨msg⟩ := u
  cases msg with
  | none => exact Or.inl rfl
  | some msg =>
    obtain ⟨chat, t⟩ := msg
    change (loopBody w m (textUpdate chat t)).pending = m ∨ _
    by_cases ht : t = ""
    · subst ht
      exact Or.inl rfl
    · by_cases hp : m.index chat.ChatID = true
      · refine Or.inr (Or.inl ⟨chat, t, rfl, ht, (index_true_iff m _).mp hp, ?_, ?_⟩)
        · change (loopBody w m (textUpdate chat t)).branch = _
          rw [loopBody_pending w m chat t ht hp]
        · change (loopBody w m (textUpdate chat t)).pending = _
          rw [loopBody_pending w m chat t ht hp]
      · have hp2 : m.index chat.ChatID = false := by simpa using hp
        by_cases hc : t = "/check_balance"
        · subst hc
          refine Or.inr (Or.inr ⟨chat, rfl, hp2, ?_, ?_⟩)
          · change (loopBody w m (textUpdate chat "/check_balance")).branch = _
            rw [loopBody_switch w m chat _ ht hp2]
            simp [commandSwitch]
          · change (loopBody w m (textUpdate chat "/check_balance")).pending = _
            rw [loopBody_switch w m chat _ ht hp2]
            simp [commandSwitch, handleCheckBalance]
        · left
          rw [loopBody_switch w m chat _ ht hp2]
          simp only [commandSwitch, hc, if_false]
          split_ifs
          all_goals rfl

theorem loopBody_keeps_keys (w : World) (m : PendingMap) (u : Update) (c : ChatID)
    (h : m c ≠ none) : (loopBody w m u).pending c ≠ none := by
  rcases loopBody_pending_cases w m u with h0 | ⟨chat, t, _, _, _, _, h1⟩ | ⟨chat, _, _, _, h1⟩
  · rw [h0]
    exact h
  · rw [h1]
    by_cases hc : c = chat.ChatID
    · simp [PendingMap.assign, hc]
    · rw [assign_other m _ c false hc]
      exact h
  · rw [h1]
    by_cases hc : c = chat.ChatID
    · simp [PendingMap.assign, hc]
    · rw [assign_other m _ c true hc]
      exact h

theorem pendingAfter_keeps_keys (m : PendingMap) (us : List (World × Update)) (c : ChatID)
    (h : m c ≠ none) : pendingAfter m us c ≠ none := by
  induction us generalizing m with
  | nil => exact h
  | cons x rest ih =>
    obtain ⟨w1, u1⟩ := x
    have hstep := loopBody_keeps_keys w1 m u1 c h
    simp only [pendingAfter]
    split_ifs
    · exact hstep
    · exact ih _ hstep

/-- The life of an entry of the map in one iteration, from any state. -/
theorem pending_lifecycle_step (m : PendingMap) (w : World) (u : Update) (c : ChatID) :
    (m c = none → (loopBody w m u).pending c ≠ none →
        (∃ chat, chat.ChatID = c ∧ u = textUpdate chat "/check_balance") ∧
          (loopBody w m u).branch = Branch.caseCheckBalance ∧
          (loopBody w m u).pending c = some true) ∧
      (m c ≠ some false → (loopBody w m u).pending c = some false →
        (∃ chat t, chat.ChatID = c ∧ t ≠ "" ∧ u = textUpdate chat t) ∧
          (loopBody w m u).branch = Branch.pendingKey ∧ m c = some true) ∧
      (m c ≠ none → (loopBody w m u).pending c ≠ none) ∧
      (∀ more : List (World × Update), m c ≠ none → pendingAfter m more c ≠ none) := by
  refine ⟨?_, ?_, loopBody_keeps_keys w m u c, fun more h => pendingAfter_keeps_keys m more c h⟩
  · intro h0 h1
    rcases loopBody_pending_cases w m u with e | ⟨chat, t, _, _, hp, _, e⟩ | ⟨chat, hu, _, hb, e⟩
    · rw [e] at h1
      exact absurd h0 h1
    · by_cases hc : c = chat.ChatID
      · subst hc
        rw [hp] at h0
        cases h0
      · rw [e, assign_other m _ c false hc] at h1
        exact absurd h0 h1
    · by_cases hc : c = chat.ChatID
      · subst hc
        exact ⟨⟨chat, rfl, hu⟩, hb, by rw [e]; exact assign_self m _ true⟩
      · rw [e, assign_other m _ c true hc] at h1
        exact absurd h0 h1
  · intro h0 h1
    rcases loopBody_pending_cases w m u with e | ⟨chat, t, hu, ht, hp, hb, e⟩ | ⟨chat, _, _, _, e⟩
    · rw [e] at h1
      exact absurd h1 h0
    · by_cases hc : c = chat.ChatID
      · subst hc
        exact ⟨⟨chat, t, rfl, ht, hu⟩, hb, hp⟩
      · rw [e, assign_other m _ c false hc] at h1
        exact absurd h1 h0
    · by_cases hc : c = chat.ChatID
      · subst hc
        rw [e, assign_self] at h1
        cases h1
      · rw [e, assign_other m _ c true hc] at h1
        exact absurd h1 h0

/-- C7: the life of an entry of the map, over every run of the loop from the
empty map.  In every state `m` such a run reaches and for every next update:
an entry for a chat appears only when the update is "/check_balance" from that
chat (dispatched by the switch), and it appears with value true; an entry
becomes false only in the iteration that consumes that chat's reply (the
pending-request arm, the entry being true before); and no entry is ever
removed, in one iteration or in any further run. -/
theorem pending_lifecycle (us : List (World × Update)) (m : PendingMap)
    (hm : m = pendingAfter pendingBalanceRequests us) (w : World) (u : Update) (c : ChatID) :
    (m c = none → (loopBody w m u).pending c ≠ none →
        (∃ chat, chat.ChatID = c ∧ u = textUpdate chat "/check_balance") ∧
          (loopBody w m u).branch = Branch.caseCheckBalance ∧
          (loopBody w m u).pending c = some true) ∧
      (m c ≠ some false → (loopBody w m u).pending c = some false →
        (∃ chat t, chat.ChatID = c ∧ t ≠ "" ∧ u = textUpdate chat t) ∧
          (loopBody w m u).branch = Branch.pendingKey ∧ m c = some true) ∧
      (m c ≠ none → (loopBody w m u).pending c ≠ none) ∧
      (∀ more : List (World × Update), m c ≠ none → pendingAfter m more c ≠ none) := by
  subst hm
  exact pending_lifecycle_step _ w u c

theorem pending_lifecycle_witness :
    pendingA = pendingAfter pendingBalanceRequests [(worldOk, textUpdate chatA "/check_balance")] ∧
      pendingA chatA.ChatID ≠ some false ∧
      (loopBody worldOk pendingA (textUpdate chatA "/help")).pending chatA.ChatID = some false ∧
      (loopBody worldOk pendingA (textUpdate chatA "/help")).branch = Branch.pendingKey ∧
      pendingA chatA.ChatID = some true :=
  ⟨rfl, by decide, by decide,
    ((pending_lifecycle [(worldOk, textUpdate chatA "/check_balance")] pendingA rfl worldOk
      (textUpdate chatA "/help") chatA.ChatID).2.1 (by decide) (by decide)).2⟩

/-- C1, as amended: for every state of the map in which chat `c` has no
pending request, and every non-empty text `t`: when the loop processes
"/check_balance" from `c` and then, after any updates that are not text
messages of `c` and without `main` having returned, a message from `c` with
text `t`, that iteration hands `t` to `handlePublicKeyForBalance` and runs no
case of the command switch, whatever `t` is. -/
theorem check_balance_then_key (m : PendingMap) (chat : Chat) (t : String) (w1 w2 : World)
    (mid : List (World × Update))
    (hm : m.index chat.ChatID = false) (ht : t ≠ "")
    (hmid : ∀ x ∈ mid, x.2.isTextFrom chat = false)
    (hrun : ∀ it ∈ mainLoop m ((w1, textUpdate chat "/check_balance") :: mid),
      it.returned = false) :
    ∃ it, (mainLoop m ((w1, textUpdate chat "/check_balance") :: mid ++
        [(w2, textUpdate chat t)])).getLast? = some it ∧
      it.branch = Branch.pendingKey ∧ it.branch.inSwitch = false ∧
      it.effects = Effect.logPrintf ("Received command: " ++ t) ::
        handlePublicKeyForBalance w2 chat.ChatID t := by
  have hlast := mainLoop_getLast m ((w1, textUpdate chat "/check_balance") :: mid) w2
    (textUpdate chat t) hrun
  have hstep : (loopBody w1 m (textUpdate chat "/check_balance")).pending chat.ChatID
      = some true := by
    rw [loopBody_switch w1 m chat _ (by decide) hm]
    simp [commandSwitch, handleCheckBalance, PendingMap.assign]
  have hret : (loopBody w1 m (textUpdate chat "/check_balance")).returned = false :=
    hrun _ (by simp [mainLoop])
  have hpend : (pendingAfter m ((w1, textUpdate chat "/check_balance") :: mid)).index
      chat.ChatID = true := by
    rw [index_true_iff]
    simp only [pendingAfter, hret]
    rw [if_neg (by simp), pendingAfter_frame_chat _ mid chat hmid]
    exact hstep
  refine ⟨_, hlast, ?_, ?_, ?_⟩
  · rw [loopBody_pending _ _ _ _ ht hpend]
  · rw [loopBody_pending _ _ _ _ ht hpend]
    rfl
  · rw [loopBody_pending _ _ _ _ ht hpend]

theorem check_balance_then_key_witness :
    pendingBalanceRequests.index chatA.ChatID = false ∧ "/help" ≠ "" ∧
      (∀ x ∈ [(worldOk, textUpdate chatB "hello"), (worldOk, textUpdate chatA "")],
        x.2.isTextFrom chatA = false) ∧
      (∀ it ∈ mainLoop pendingBalanceRequests ((worldOk, textUpdate chatA "/check_balance") ::
          [(worldOk, textUpdate chatB "hello"), (worldOk, textUpdate chatA "")]),
        it.returned = false) ∧
      ∃ it, (mainLoop pendingBalanceRequests ((worldOk, textUpdate chatA "/check_balance") ::
          [(worldOk, textUpdate chatB "hello"), (worldOk, textUpdate chatA "")] ++
          [(worldOk, textUpdate chatA "/help")])).getLast? = some it ∧
        it.branch = Branch.pendingKey ∧ it.branch.inSwitch = false ∧
        it.effects = Effect.logPrintf ("Received command: " ++ "/help") ::
          handlePublicKeyForBalance worldOk chatA.ChatID "/help" :=
  ⟨by decide, by decide, by decide, by decide,
    check_balance_then_key pendingBalanceRequests chatA "/help" worldOk worldOk
      [(worldOk, textUpdate chatB "hello"), (worldOk, textUpdate chatA "")]
      (by decide) (by decide) (by decide) (by decide)⟩

/-- C1, the claim as stated fails when the chat already has a pending request.
From the empty map, `chatA` sends "/check_balance" twice and then "/help": the
first sets the flag, the second is itself consumed as the public key (one
balance call with argument "/check_balance") and clears the flag, and "/help",
the next message after a processed "/check_balance", is dispatched by the
command switch and answered with the help text, not handed to
`handlePublicKeyForBalance`. -/
theorem check_balance_while_pending_counterexample :
    pendingAfter pendingBalanceRequests [(worldOk, textUpdate chatA "/check_balance")] = pendingA ∧
      pendingA.index chatA.ChatID = true ∧
      (mainLoop pendingBalanceRequests [(worldOk, textUpdate chatA "/check_balance"),
          (worldOk, textUpdate chatA "/check_balance"),
          (worldOk, textUpdate chatA "/help")]).map (fun it => it.branch) =
        [Branch.caseCheckBalance, Branch.pendingKey, Branch.caseHelp] ∧
      (mainLoop pendingA [(worldOk, textUpdate chatA "/check_balance"),
          (worldOk, textUpdate chatA "/help")]).map (fun it => it.effects) =
        [[Effect.logPrintf "Received command: /check_balance",
            Effect.GetBalance "/check_balance",
            Effect.SendMessage chatA.ChatID
              "Balance for account /check_balance: 1500 lamports"],
          [Effect.logPrintf "Received command: /help",
            Effect.SendMessage chatA.ChatID helpMessage]] ∧
      ¬ ∃ it, (mainLoop pendingA [(worldOk, textUpdate chatA "/check_balance"),
          (worldOk, textUpdate chatA "/help")]).getLast? = some it ∧
        it.branch = Branch.pendingKey := by
  refine ⟨rfl, by decide, by decide, by decide, ?_⟩
  rintro ⟨it, hit, hb⟩
  have h : (mainLoop pendingA [(worldOk, textUpdate chatA "/check_balance"),
      (worldOk, textUpdate chatA "/help")]).getLast?.map (fun it => it.branch) =
      some Branch.caseHelp := by decide
  rw [hit] at h
  simp [hb] at h

/-- C9: only "/check_balance" sets the pending flag.  For a chat with no
pending request, an iteration on "/start", "/create_account", "/fund_account",
"/list_tokens" or "/help" leaves the map unchanged, while "/check_balance"
sets the chat's flag.  "/list_tokens" replies "Please reply with the Solana
public key to list tokens." and sets nothing: the chat's next text message
(after any updates that are not text messages of that chat, `main` not having
returned) is dispatched by the command switch, and when it is not one of the
six command strings, as a public key is not, the reply is "Invalid command". -/
theorem only_check_balance_arms (w : World) (m : PendingMap) (chat : Chat) (t : String)
    (hm : m.index chat.ChatID = false)
    (ht : t ∈ ["/start", "/create_account", "/fund_account", "/list_tokens", "/help"]) :
    (loopBody w m (textUpdate chat t)).pending = m ∧
      (loopBody w m (textUpdate chat t)).branch.inSwitch = true ∧
      (loopBody w m (textUpdate chat "/check_balance")).pending.index chat.ChatID = true ∧
      (loopBody w m (textUpdate chat "/list_tokens")).effects =
        [Effect.logPrintf "Received command: /list_tokens",
          Effect.SendMessage chat.ChatID
            "Please reply with the Solana public key to list tokens."] ∧
      (loopBody w m (textUpdate chat "/list_tokens")).pending = m ∧
      ∀ (mid : List (World × Update)) (w2 : World) (t2 : String), t2 ≠ "" →
        (∀ x ∈ mid, x.2.isTextFrom chat = false) →
        (∀ it ∈ mainLoop m ((w, textUpdate chat "/list_tokens") :: mid), it.returned = false) →
        ∃ it, (mainLoop m ((w, textUpdate chat "/list_tokens") :: mid ++
            [(w2, textUpdate chat t2)])).getLast? = some it ∧
          it.branch.inSwitch = true ∧
          (t2 ∉ ["/start", "/create_account", "/fund_account", "/check_balance",
              "/list_tokens", "/help"] →
            it.branch = Branch.caseDefault ∧
              sent it.effects = [(chat.ChatID, "Invalid command")] ∧
              balanceCalls it.effects = []) := by
  have hne : t ≠ "" := by
    intro h0
    subst h0
    revert ht
    decide
  have hlist : loopBody w m (textUpdate chat "/list_tokens") =
      { pending := m
        effects := [Effect.logPrintf "Received command: /list_tokens",
          Effect.SendMessage chat.ChatID
            "Please reply with the Solana public key to list tokens."]
        branch := Branch.caseListTokens
        returned := false } := by
    rw [loopBody_switch w m chat _ (by decide) hm]
    simp [commandSwitch, handleListTokens]
  refine ⟨?_, ?_, ?_, by rw [hlist], by rw [hlist], ?_⟩
  · rw [loopBody_switch w m chat t hne hm]
    simp only [List.mem_cons, List.mem_singleton, List.not_mem_nil, or_false] at ht
    rcases ht with h | h | h | h | h
    all_goals subst h
    all_goals simp [commandSwitch]
  · rw [loopBody_switch w m chat t hne hm]
    exact commandSwitch_inSwitch w m chat t
  · rw [loopBody_switch w m chat _ (by decide) hm]
    simp [commandSwitch, handleCheckBalance, PendingMap.assign, PendingMap.index]
  · intro mid w2 t2 ht2 hmid hrun
    have hlast := mainLoop_getLast m ((w, textUpdate chat "/list_tokens") :: mid) w2
      (textUpdate chat t2) hrun
    have hpend : (pendingAfter m ((w, textUpdate chat "/list_tokens") :: mid)).index
        chat.ChatID = false := by
      have h1 : pendingAfter m ((w, textUpdate chat "/list_tokens") :: mid) chat.ChatID =
          m chat.ChatID := by
        simp only [pendingAfter, hlist]
        rw [if_neg (by simp), pendingAfter_frame_chat _ mid chat hmid]
      rw [index_eq_of_eq _ m _ h1]
      exact hm
    refine ⟨_, hlast, ?_, ?_⟩
    · rw [loopBody_switch _ _ _ _ ht2 hpend]
      exact commandSwitch_inSwitch _ _ _ _
    · intro hc
      rw [loopBody_switch _ _ _ _ ht2 hpend, commandSwitch_default _ _ _ _ hc]
      exact ⟨rfl, rfl, rfl⟩

theorem only_check_balance_arms_witness :
    pendingBalanceRequests.index chatA.ChatID = false ∧
      "/list_tokens" ∈ ["/start", "/create_account", "/fund_account", "/list_tokens", "/help"] ∧
      (loopBody worldOk pendingBalanceRequests (textUpdate chatA "/list_tokens")).pending =
        pendingBalanceRequests ∧
      ∃ it, (mainLoop pendingBalanceRequests ((worldOk, textUpdate chatA "/list_tokens") :: [] ++
          [(worldOk, textUpdate chatA "4Nd1mBQtrMJVYVfKf2PJy9NZUZdTAsp7D4xWLs4gDB4T")])).getLast?
            = some it ∧
        it.branch.inSwitch = true ∧
        ("4Nd1mBQtrMJVYVfKf2PJy9NZUZdTAsp7D4xWLs4gDB4T" ∉ ["/start", "/create_account",
            "/fund_account", "/check_balance", "/list_tokens", "/help"] →
          it.branch = Branch.caseDefault ∧
            sent it.effects = [(chatA.ChatID, "Invalid command")] ∧
            balanceCalls it.effects = []) :=
  ⟨by decide, by decide,
    (only_check_balance_arms worldOk pendingBalanceRequests chatA "/list_tokens" (by decide)
      (by decide)).1,
    (only_check_balance_arms worldOk pendingBalanceRequests chatA "/list_tokens" (by decide)
      (by decide)).2.2.2.2.2 [] worldOk "4Nd1mBQtrMJVYVfKf2PJy9NZUZdTAsp7D4xWLs4gDB4T"
      (by decide) (by decide) (by decide)⟩

theorem helpCommands_eq :
    helpCommands =
      ["/create_account", "/fund_account", "/check_balance", "/list_tokens", "/help"] := by
  decide

/-- C6, as amended: the reply to "/help" from a chat with no pending request
is the help text; after the header line "Available commands:" it has exactly
five lines, one each for /create_account, /fund_account, /check_balance,
/list_tokens and /help; and the commands the switch dispatches to a case of
their own (the same six that are registered with `bot.SetMyCommands`) are
those five together with "/start", which the help text does not list. -/
theorem help_lists_five_of_six (w : World) (m : PendingMap) (chat : Chat)
    (hm : m.index chat.ChatID = false) :
    (loopBody w m (textUpdate chat "/help")).effects =
        [Effect.logPrintf "Received command: /help",
          Effect.SendMessage chat.ChatID helpMessage] ∧
      (splitLines helpMessage.data).map String.mk =
        ["Available commands:",
          "/create_account - Create a new Solana account",
          "/fund_account - Fund a Solana account",
          "/check_balance - Check Solana account balance",
          "/list_tokens - List tokens in a Solana account",
          "/help - Show this help message"] ∧
      helpCommands =
        ["/create_account", "/fund_account", "/check_balance", "/list_tokens", "/help"] ∧
      "/start" ∉ helpCommands ∧
      botCommands.map (fun c => "/" ++ c.1) = "/start" :: helpCommands ∧
      ∀ t : String, (commandSwitch w m chat t).branch ≠ Branch.caseDefault ↔
        (t = "/start" ∨ t ∈ helpCommands) := by
  refine ⟨?_, by decide, helpCommands_eq, by decide, by decide, ?_⟩
  · rw [loopBody_switch w m chat _ (by decide) hm]
    simp [commandSwitch]
  · intro t
    rw [helpCommands_eq]
    constructor
    · intro h
      by_contra hn
      apply h
      rw [commandSwitch_default w m chat t]
      intro hmem
      apply hn
      simp only [List.mem_cons, List.mem_singleton, List.not_mem_nil, or_false] at hmem ⊢
      tauto
    · intro h
      simp only [List.mem_cons, List.mem_singleton, List.not_mem_nil, or_false] at h
      rcases h with h | h | h | h | h | h
      all_goals subst h
      all_goals simp [commandSwitch]

theorem help_lists_five_of_six_witness :
    pendingBalanceRequests.index chatA.ChatID = false ∧
      (loopBody worldOk pendingBalanceRequests (textUpdate chatA "/help")).effects =
        [Effect.logPrintf "Received command: /help",
          Effect.SendMessage chatA.ChatID helpMessage] ∧
      helpCommands =
        ["/create_account", "/fund_account", "/check_balance", "/list_tokens", "/help"] :=
  ⟨by decide,
    (help_lists_five_of_six worldOk pendingBalanceRequests chatA (by decide)).1,
    (help_lists_five_of_six worldOk pendingBalanceRequests chatA (by decide)).2.2.1⟩

/-- C6, the claim as stated fails at "/start": the switch has a case of its
own for it (it answers with the welcome text, not "Invalid command"), and the
help text does not list it, so the five commands the help text lists are not
the set of commands the dispatcher implements. -/
theorem help_omits_start_counterexample :
    (loopBody worldOk pendingBalanceRequests (textUpdate chatA "/start")).branch =
        Branch.caseStart ∧
      (loopBody worldOk pendingBalanceRequests (textUpdate chatA "/start")).effects =
        [Effect.logPrintf "Received command: /start",
          Effect.SendMessage chatA.ChatID
            "Welcome to Solana Bot! Use /create_account to create a new account."] ∧
      "/start" ∉ helpCommands ∧
      ¬ ∀ t : String, t ∈ helpCommands ↔
        (commandSwitch worldOk pendingBalanceRequests chatA t).branch ≠ Branch.caseDefault := by
  refine ⟨by decide, by decide, by decide, ?_⟩
  intro h
  have h1 : "/start" ∈ helpCommands := (h "/start").mpr (by decide)
  exact absurd h1 (by decide)

end SolanaTelegramBot
